import Mathlib

/-!
# Verification of the SP-API report ingestion core

Shallow embedding of the retry transport, the async report polling loops,
the payload decode ladders, the chunking of identifier lists and the
skip-if-exists sink logic of the `spapi-to-gcs-daily` repository, together
with theorems settling the specification claims about them.

Sources embedded:
- `src/utils/http_retry.py` (`request_with_retry`)
- `src/utils/sp_api_auth.py` (`get_access_token`)
- `src/endpoints/ledger_summary_view_data.py` (poll loop, decode ladder)
- `src/endpoints/all_orders_report.py` (decode ladder)
- `src/endpoints/sales_and_traffic_report.py` (multi-report poll loop, write)
- `src/backfill/scripts/backfill_brand_analytics_weekly.py`
  (`fetch_report`, `backfill_weekly`)
-/

namespace SpApi

/-! ## Resilient transport: `request_with_retry` (src/utils/http_retry.py)

`requests.request` is abstracted by an attempt-indexed environment
`outcomes : Nat → Attempt`: on attempt `k` the library call either returns
a `Response` or raises a network-level exception (`netFail`, e.g. a
`ConnectionError`), which is not a `requests.HTTPError`.
`response.raise_for_status()` raises `requests.HTTPError` exactly for
status codes in `[400, 600)`, with `e.response` the response itself. -/

structure Response where
  status : Nat
  body : String
deriving DecidableEq, Repr

inductive Attempt where
  /-- `requests.request` returned a response (after redirect handling). -/
  | resp (r : Response)
  /-- `requests.request` itself raised (connection refused/reset, DNS). -/
  | netFail
deriving DecidableEq, Repr

/-- Outcome of one `request_with_retry` call. -/
inductive Res where
  /-- the response was returned to the caller -/
  | ok (r : Response)
  /-- a `requests.HTTPError` propagated, carrying the response -/
  | raisedHttp (r : Response)
  /-- a non-HTTPError exception propagated (network failure) -/
  | raisedNet
  /-- the `for` loop was exited without returning (only when `max_retries = 0`) -/
  | fellThrough
deriving DecidableEq, Repr

structure RunResult where
  res : Res
  /-- number of calls to `requests.request` issued -/
  requests : Nat
  /-- the `time.sleep` durations performed, in order -/
  sleeps : List Nat
deriving DecidableEq, Repr

/-- Keyword arguments of `request_with_retry` that the function itself
consumes, plus the remaining kwargs forwarded to `requests.request`. -/
structure Kwargs where
  retry_delay : Option Nat
  retry_delays : Option (List Nat)
  /-- the remaining keyword arguments (headers, data, params, ...) -/
  other : List (String × String)
deriving DecidableEq, Repr

/-- The two `kwargs.pop` lines: what is left of `kwargs` when it is handed
to `requests.request`. -/
def poppedKwargs (kw : Kwargs) : Kwargs :=
  { kw with retry_delay := none, retry_delays := none }

/-- `retry_delays = kwargs.pop('retry_delays', [60, 300, 300])`. -/
def resolvedDelays (kw : Kwargs) : List Nat :=
  kw.retry_delays.getD [60, 300, 300]

/-- `retry_delays[attempt] if attempt < len(retry_delays) else retry_delays[-1]`
(the callers always supply a nonempty schedule). -/
def waitTime (delays : List Nat) (attempt : Nat) : Nat :=
  if attempt < delays.length then delays.getD attempt 0 else delays.getLastD 0

/-- The `for attempt in range(max_retries)` loop of `request_with_retry`.
`fuel` is the number of loop iterations still available
(`fuel = maxRetries - attempt` at every call). -/
def retryAux (outcomes : Nat → Attempt) (delays : List Nat)
    (maxRetries : Nat) (attempt : Nat) : Nat → RunResult
  | 0 => ⟨.fellThrough, 0, []⟩
  | fuel + 1 =>
    match outcomes attempt with
    | .netFail => ⟨.raisedNet, 1, []⟩
    | .resp r =>
      if 400 ≤ r.status ∧ r.status < 600 then
        -- raise_for_status raised an HTTPError with e.response = r
        if r.status = 429 then
          let wait := waitTime delays attempt
          if attempt < maxRetries - 1 then
            let rest := retryAux outcomes delays maxRetries (attempt + 1) fuel
            ⟨rest.res, rest.requests + 1, wait :: rest.sleeps⟩
          else
            ⟨.raisedHttp r, 1, []⟩
        else
          ⟨.raisedHttp r, 1, []⟩
      else
        ⟨.ok r, 1, []⟩

/-- `request_with_retry(method, url, max_retries, **kwargs)`: the retry
behaviour as a function of the attempt outcomes. The request issued on
every attempt receives `poppedKwargs kw`. -/
def request_with_retry (outcomes : Nat → Attempt) (maxRetries : Nat)
    (kw : Kwargs) : RunResult :=
  retryAux outcomes (resolvedDelays kw) maxRetries 0 maxRetries

/-- An empty kwargs dict (no retry overrides, no forwarded args). -/
def kw0 : Kwargs := ⟨none, none, []⟩

end SpApi

namespace SpApi

/-! Sanity examples (concrete evaluations of the transport). -/

example : request_with_retry (fun _ => .resp ⟨200, "okbody"⟩) 4 kw0
    = ⟨.ok ⟨200, "okbody"⟩, 1, []⟩ := by decide

example : request_with_retry (fun _ => .resp ⟨429, "slow"⟩) 4 kw0
    = ⟨.raisedHttp ⟨429, "slow"⟩, 4, [60, 300, 300]⟩ := by decide

example : request_with_retry (fun _ => .resp ⟨503, "e"⟩) 4 kw0
    = ⟨.raisedHttp ⟨503, "e"⟩, 1, []⟩ := by decide

example : request_with_retry (fun _ => .netFail) 4 kw0
    = ⟨.raisedNet, 1, []⟩ := by decide

example : request_with_retry
    (fun k => if k = 0 then .resp ⟨429, "slow"⟩ else .resp ⟨200, "y"⟩) 4 kw0
    = ⟨.ok ⟨200, "y"⟩, 2, [60]⟩ := by decide

/-! ## Token acquisition: `get_access_token` (src/utils/sp_api_auth.py)

Only the retry loop over the token-endpoint POST is embedded (credential
loading happens before it and raises `ValueError` independently of HTTP
outcomes). `requests.post` either raises a
`requests.exceptions.ConnectionError`, raises some other non-HTTP
exception, or returns a response; `raise_for_status` then raises
`requests.HTTPError` for statuses in `[400, 600)`, and on a non-error
response the function returns `response.json().get("access_token")`. -/

inductive TokenAttempt where
  | resp (status : Nat) (token : String)
  | connErr
  | otherExc
deriving DecidableEq, Repr

inductive TokenRes where
  | ok (token : String)
  | raisedConn
  | raisedHttp (status : Nat)
  | raisedOther
  /-- the loop was exited without returning (unreachable for `maxRetries > 0`) -/
  | fellThrough
deriving DecidableEq, Repr

structure TokenRun where
  res : TokenRes
  requests : Nat
  sleeps : List Nat
deriving DecidableEq, Repr

/-- The `for attempt in range(max_retries)` loop of `get_access_token`,
with `retry_delay` starting at 1 second and doubling on every retried
failure. `fuel = maxRetries - attempt` at every call. -/
def tokenAux (oc : Nat → TokenAttempt) (maxRetries : Nat)
    (attempt : Nat) (delay : Nat) : Nat → TokenRun
  | 0 => ⟨.fellThrough, 0, []⟩
  | fuel + 1 =>
    match oc attempt with
    | .connErr =>
      if attempt < maxRetries - 1 then
        let rest := tokenAux oc maxRetries (attempt + 1) (delay * 2) fuel
        ⟨rest.res, rest.requests + 1, delay :: rest.sleeps⟩
      else
        ⟨.raisedConn, 1, []⟩
    | .otherExc => ⟨.raisedOther, 1, []⟩
    | .resp status token =>
      if 400 ≤ status ∧ status < 600 then
        -- raise_for_status raised an HTTPError
        if attempt < maxRetries - 1 ∧ 500 ≤ status ∧ status < 600 then
          let rest := tokenAux oc maxRetries (attempt + 1) (delay * 2) fuel
          ⟨rest.res, rest.requests + 1, delay :: rest.sleeps⟩
        else
          ⟨.raisedHttp status, 1, []⟩
      else
        ⟨.ok token, 1, []⟩

/-- `get_access_token()`: `max_retries = 5`, initial `retry_delay = 1.0`. -/
def get_access_token (oc : Nat → TokenAttempt) : TokenRun :=
  tokenAux oc 5 0 1 5

example : get_access_token (fun _ => .resp 200 "tok") = ⟨.ok "tok", 1, []⟩ := by
  decide

example : get_access_token
    (fun k => if k = 0 then .resp 503 "" else .resp 200 "tok")
    = ⟨.ok "tok", 2, [1]⟩ := by decide

example : get_access_token (fun _ => .connErr)
    = ⟨.raisedConn, 5, [1, 2, 4, 8]⟩ := by decide

/-! ## Async report polling

The report-status poll loop shared (verbatim up to cosmetics) by
`ledger_summary_view_data.run` and
`backfill_brand_analytics_weekly.fetch_report`:

    for attempt in range(max_attempts):
        time.sleep(retry_delay)
        response = request_with_retry('GET', get_report_url, ...)
        status = response.json().get("processingStatus")
        if status == "DONE":
            report_document_id = response.json()["reportDocumentId"]
            break
        elif status in ["FATAL", "CANCELLED"]:
            break

The status GET is abstracted by a poll-indexed environment
`st : Nat → PStatus`; `done` carries the `reportDocumentId` of the same
response body. -/

inductive PStatus where
  | inQueue
  | inProgress
  | done (docId : String)
  | fatal
  | cancelled
deriving DecidableEq, Repr

/-- The poll loop body; returns the final `report_document_id` (None unless
a DONE response was seen) and the number of status GETs issued.
`fuel = maxAttempts - attempt` at every call. -/
def pollAux (st : Nat → PStatus) (attempt : Nat) : Nat → Option String × Nat
  | 0 => (none, 0)
  | fuel + 1 =>
    match st attempt with
    | .done d => (some d, 1)
    | .fatal => (none, 1)
    | .cancelled => (none, 1)
    | .inQueue =>
      let rest := pollAux st (attempt + 1) fuel
      (rest.1, rest.2 + 1)
    | .inProgress =>
      let rest := pollAux st (attempt + 1) fuel
      (rest.1, rest.2 + 1)

/-- One full poll phase with `maxAttempts` iterations. -/
def pollChunk (st : Nat → PStatus) (maxAttempts : Nat) : Option String × Nat :=
  pollAux st 0 maxAttempts

example : pollChunk (fun k => if k < 2 then .inProgress else .fatal) 10
    = (none, 3) := by decide

example : pollChunk (fun _ => .inProgress) 10 = (none, 10) := by decide

example : pollChunk (fun k => if k < 2 then .inProgress else .done "D1") 10
    = (some "D1", 3) := by decide

/-! ## `fetch_report` (src/backfill/scripts/backfill_brand_analytics_weekly.py)

One ASIN chunk of `fetch_report`: create the report (any exception in the
`try` block is caught by `except Exception: continue`, contributing no
lines), poll for the document id, and on success download/gunzip/parse the
document, whose `dataByAsin` items are serialized to NDJSON lines. The
create call and download/parse pipeline are abstracted: `createOk = false`
means the report-creation POST (or `reportId` extraction) raised;
`download = none` means the document download, decompression or JSON parse
raised (or the wanted keys were missing); `download = some items` gives the
serialized `dataByAsin` items. -/

structure ChunkEnv where
  createOk : Bool
  statuses : Nat → PStatus
  download : Option (List String)

/-- Lines one chunk contributes to `all_ndjson_lines`. -/
def processChunk (env : ChunkEnv) (maxAttempts : Nat) : List String :=
  if env.createOk then
    match (pollChunk env.statuses maxAttempts).1 with
    | none => []
    | some _ =>
      match env.download with
      | none => []
      | some items => items
  else []

/-- `fetch_report` over the chunk list (lines 241-244 of the script):

    if all_ndjson_lines:
        return "\n".join(all_ndjson_lines), False, False
    else:
        return None, False, False

The second and third components are the returned `is_fatal` and
`is_timeout` flags. -/
def fetch_report (envs : List ChunkEnv) (maxAttempts : Nat) :
    Option String × Bool × Bool :=
  let lines := (envs.map (fun e => processChunk e maxAttempts)).flatten
  if lines.isEmpty then (none, false, false)
  else (some (String.intercalate "\n" lines), false, false)

/-! ## `backfill_weekly` loop (same script, lines 287-334)

State carried across date windows; the filesystem of already-written
weekly files is the sink. Windows are identified by their filename. -/

structure BWState where
  files : List String
  success : Nat
  skip : Nat
  consecErr : Nat
  consecTo : Nat
deriving DecidableEq, Repr

/-- The `for start_date, end_date in get_all_week_ranges(...)` loop.
`fetch` abstracts `fetch_report("WEEK", start, end, headers, asins, 10, 10)`
for the window with the given filename. A `break` is modelled by returning
the current state without consuming the remaining windows. -/
def bwLoop (fetch : String → Option String × Bool × Bool) :
    List String → BWState → BWState
  | [], s => s
  | filename :: rest, s =>
    if filename ∈ s.files then
      bwLoop fetch rest { s with skip := s.skip + 1 }
    else
      match fetch filename with
      | (some _, _, _) =>
        bwLoop fetch rest
          { s with files := filename :: s.files, success := s.success + 1,
                   consecErr := 0, consecTo := 0 }
      | (none, isFatal, isTimeout) =>
        let s' : BWState :=
          { s with skip := s.skip + 1, consecErr := s.consecErr + 1,
                   consecTo := if isTimeout then s.consecTo + 1 else 0 }
        if isFatal then s'
        else if 3 ≤ s'.consecTo then s'
        else if 5 ≤ s'.consecErr then s'
        else bwLoop fetch rest s'

/-- Initial state of `backfill_weekly` (empty data directory). -/
def bwInit : BWState := ⟨[], 0, 0, 0, 0⟩

/-! ## Payload decode ladders

The downloaded bytes are abstracted by the decision-relevant facts about
them: whether they start with the gzip magic `\x1f\x8b`, whether gzip
decompression succeeds (and with which exception class it fails), and
which text encodings the decompressed and the raw bytes are valid in.
`gzip.open(..., 'rt', encoding=E).read()` raises `gzip.BadGzipFile`
(a subclass of `OSError`) for a bad magic number, unknown compression
method or CRC mismatch, raises `EOFError` or `zlib.error` (neither an
`OSError`) for a truncated or corrupt deflate stream, and raises
`UnicodeDecodeError` when decompression succeeds but the bytes are not
valid in encoding `E`; `bytes.decode(E)` raises `UnicodeDecodeError` on
invalid input; every byte string is valid latin-1 / iso-8859-1. -/

inductive GzipRes where
  | ok
  | badGzip
  | eofOrZlib
deriving DecidableEq, Repr

structure RawBytes where
  hasGzipMagic : Bool
  gz : GzipRes
  innerUtf8 : Bool
  innerCp932 : Bool
  rawUtf8 : Bool
  rawCp932 : Bool
deriving DecidableEq, Repr

inductive Exc where
  | unicodeDecodeError
  | badGzipFile
  | eofOrZlibError
deriving DecidableEq, Repr

inductive Enc where
  | utf8
  | cp932
  | latin1
deriving DecidableEq, Repr

inductive Src where
  | gzipped
  | raw
deriving DecidableEq, Repr

inductive DecodeResult where
  /-- decoding returned text, via this encoding and source -/
  | decoded (enc : Enc) (src : Src)
  /-- an exception escaped the ladder -/
  | raised (e : Exc)
deriving DecidableEq, Repr

/-- `gzip.open(io.BytesIO(content), 'rt', encoding=E).read()`:
`innerOk` says whether the decompressed bytes are valid in `E`. -/
def gzipRead (b : RawBytes) (innerOk : Bool) : Option Exc :=
  match b.gz with
  | .ok => if innerOk then none else some .unicodeDecodeError
  | .badGzip => some .badGzipFile
  | .eofOrZlib => some .eofOrZlibError

/-- The decode ladder of `all_orders_report.run` (lines 152-165):

    try:
        with gzip.open(..., 'rt', encoding='utf-8') as f: ...
    except gzip.BadGzipFile:
        try: content.decode('utf-8')
        except UnicodeDecodeError:
            try: content.decode('cp932')
            except UnicodeDecodeError:
                content.decode('latin-1')
-/
def allOrdersDecode (b : RawBytes) : DecodeResult :=
  match gzipRead b b.innerUtf8 with
  | none => .decoded .utf8 .gzipped
  | some e =>
    match e with
    | .badGzipFile =>
      if b.rawUtf8 then .decoded .utf8 .raw
      else if b.rawCp932 then .decoded .cp932 .raw
      else .decoded .latin1 .raw
    | _ => .raised e

/-- The decode ladder of `ledger_summary_view_data.run` (lines 151-169):

    try:
        with gzip.open(..., 'rt', encoding='utf-8') as f: ...
    except (OSError, UnicodeDecodeError):
        try:
            if content[:2] == b'\x1f\x8b':
                with gzip.open(..., 'rt', encoding='cp932') as f: ...
            else:
                content.decode('cp932')
        except UnicodeDecodeError:
            if content[:2] == b'\x1f\x8b':
                with gzip.open(..., 'rt', encoding='iso-8859-1') as f: ...
            else:
                content.decode('iso-8859-1')
-/
def ledgerDecode (b : RawBytes) : DecodeResult :=
  match gzipRead b b.innerUtf8 with
  | none => .decoded .utf8 .gzipped
  | some e =>
    if e = .badGzipFile ∨ e = .unicodeDecodeError then
      if b.hasGzipMagic then
        match gzipRead b b.innerCp932 with
        | none => .decoded .cp932 .gzipped
        | some e2 =>
          if e2 = .unicodeDecodeError then
            match gzipRead b true with
            | none => .decoded .latin1 .gzipped
            | some e3 => .raised e3
          else .raised e2
      else
        if b.rawCp932 then .decoded .cp932 .raw
        else .decoded .latin1 .raw
    else .raised e

/-! ## Chunking of the ASIN list

`for i in range(0, len(asin_list), chunk_size): chunk = asin_list[i:i+10]`
with the literal `chunk_size = 10` used by the weekly brand-analytics
endpoint and backfill script. -/

def chunksAux {α : Type} : Nat → List α → List (List α)
  | _, [] => []
  | 0, _ :: _ => []
  | fuel + 1, a :: l => ((a :: l).take 10) :: chunksAux fuel ((a :: l).drop 10)

/-- The slice loop; `l.length` iterations of fuel always suffice because
each slice consumes at least one element. -/
def chunks10 {α : Type} (l : List α) : List (List α) :=
  chunksAux l.length l

example : chunks10 (List.range 23) =
    [List.range' 0 10, List.range' 10 10, List.range' 20 3] := by decide

/-! ## Sink write units

`backfill_weekly`'s per-window unit (lines 287-304): check
`filepath.exists()` first, fetch only when absent, write only when the
fetch produced content. The sink is the list of files written so far
(most recent first); a write appends. -/

inductive UnitAction where
  | skippedExists
  | written
  | noData
deriving DecidableEq, Repr

def backfillUnit (files : List String) (filename : String)
    (fetched : Option String) : List String × UnitAction :=
  if filename ∈ files then (files, .skippedExists)
  else
    match fetched with
    | some _ => (filename :: files, .written)
    | none => (files, .noData)

/-- Truthiness of `report_content.strip()`: the string is nonempty after
stripping leading/trailing whitespace, i.e. some character of it is not
whitespace. -/
def stripTruthy (content : String) : Bool :=
  content.data.any (fun c => !c.isWhitespace)

/-- `sales_and_traffic_report.run`'s write step for one DONE report
(lines 179-186): no existence check; upload whenever the decoded content
is not whitespace-only. The sink records every issued write (GCS
overwrites silently on key collision), and the `Bool` says whether a
write was issued. -/
def salesWriteUnit (writes : List String) (blobName : String)
    (content : String) : List String × Bool :=
  if stripTruthy content then (blobName :: writes, true)
  else (writes, false)

/-! ## The batched poll loop of `sales_and_traffic_report.run`

All pending reports are polled in rounds, at most `max_loops = 40`
rounds; a report leaves the pending set when its status GET returns DONE
(and the download/upload succeeds), FATAL or CANCELLED. Any exception in
the per-item `try` leaves the report uncompleted (it is polled again next
round). The environment gives, per report id and per poll of that id,
the observed outcome. -/

inductive SalesPoll where
  /-- the status GET returned this status and, for `done`, the download
  and upload succeeded -/
  | resp (st : PStatus)
  /-- some exception was raised inside the per-item `try` -/
  | excDuringPoll
deriving Repr

structure SalesState where
  completed : List String
  polls : String → Nat

/-- The body of `for item in pending_reports:` for one report id. -/
def salesPollOnce (env : String → Nat → SalesPoll) (s : SalesState)
    (id : String) : SalesState :=
  if id ∈ s.completed then s
  else
    let oc := env id (s.polls id)
    let s1 : SalesState :=
      { s with polls := fun j => if j = id then s.polls id + 1 else s.polls j }
    match oc with
    | .resp (.done _) => { s1 with completed := id :: s1.completed }
    | .resp .fatal => { s1 with completed := id :: s1.completed }
    | .resp .cancelled => { s1 with completed := id :: s1.completed }
    | .resp .inQueue => s1
    | .resp .inProgress => s1
    | .excDuringPoll => s1

/-- One round over the pending reports. -/
def salesIter (env : String → Nat → SalesPoll) (pending : List String)
    (s : SalesState) : SalesState :=
  pending.foldl (salesPollOnce env) s

/-- `for i in range(max_loops):` with the early exit when every pending
report is completed. -/
def salesLoop (env : String → Nat → SalesPoll) (pending : List String) :
    Nat → SalesState → SalesState
  | 0, s => s
  | n + 1, s =>
    if pending.all (fun id => s.completed.contains id) then s
    else salesLoop env pending n (salesIter env pending s)

/-- The whole waiting phase: `max_loops = 40`, nothing completed yet,
no polls issued yet. -/
def salesRun (env : String → Nat → SalesPoll) (pending : List String) :
    SalesState :=
  salesLoop env pending 40 ⟨[], fun _ => 0⟩

/-! ## Theorems: resilient transport (claims C1, C2, C3, C10) -/

/-- C1 counterexample: through `request_with_retry`, a first response with
a 5xx status, and likewise a network-level failure, is re-raised
immediately after a single HTTP request with no sleep and no retry —
refuting the claim that such failures are treated as transient and
retried by this function. -/
theorem C1_counterexample :
    request_with_retry (fun _ => .resp ⟨503, "oops"⟩) 4 kw0
      = ⟨.raisedHttp ⟨503, "oops"⟩, 1, []⟩ ∧
    request_with_retry (fun _ => .netFail) 4 kw0
      = ⟨.raisedNet, 1, []⟩ := by
  decide

/-- C1 amended: `request_with_retry` treats only 429 as transient; a 5xx
response or a network-level failure on the first attempt is re-raised
immediately, after exactly one HTTP request, with no sleep. Retry of 5xx
and connection errors exists only in `get_access_token`, which on a first
5xx with attempts remaining sleeps 1 second and retries. -/
theorem C1_only_429_transient (outcomes : Nat → Attempt) (kw : Kwargs)
    (m : Nat) (hm : 1 ≤ m) (r : Response) (h5 : 500 ≤ r.status)
    (h6 : r.status < 600) (oc : Nat → TokenAttempt) (ts : Nat)
    (ht5 : 500 ≤ ts) (ht6 : ts < 600) :
    (outcomes 0 = .resp r →
      request_with_retry outcomes m kw = ⟨.raisedHttp r, 1, []⟩) ∧
    (outcomes 0 = .netFail →
      request_with_retry outcomes m kw = ⟨.raisedNet, 1, []⟩) ∧
    (oc 0 = .resp ts "" → oc 1 = .resp 200 "tok" →
      get_access_token oc = ⟨.ok "tok", 2, [1]⟩) := by
  obtain ⟨m', rfl⟩ : ∃ m', m = m' + 1 := ⟨m - 1, by omega⟩
  refine ⟨?_, ?_, ?_⟩
  · intro h0
    have hcond : 400 ≤ r.status ∧ r.status < 600 := ⟨by omega, h6⟩
    have h429 : ¬(r.status = 429) := by omega
    simp [request_with_retry, retryAux, h0, hcond, h429]
  · intro h0
    simp [request_with_retry, retryAux, h0]
  · intro h0 h1
    have hcond : 400 ≤ ts ∧ ts < 600 := ⟨by omega, ht6⟩
    have hr : 0 < 5 - 1 ∧ 500 ≤ ts ∧ ts < 600 := ⟨by omega, ht5, ht6⟩
    simp [get_access_token, tokenAux, h0, h1, hcond, hr]

/-- C1 witness. -/
theorem C1_only_429_transient_witness :
    (((fun _ => Attempt.resp ⟨503, "oops"⟩) : Nat → Attempt) 0
        = .resp ⟨503, "oops"⟩ →
      request_with_retry (fun _ => .resp ⟨503, "oops"⟩) 4 kw0
        = ⟨.raisedHttp ⟨503, "oops"⟩, 1, []⟩) ∧
    (((fun _ => Attempt.resp ⟨503, "oops"⟩) : Nat → Attempt) 0 = .netFail →
      request_with_retry (fun _ => .resp ⟨503, "oops"⟩) 4 kw0
        = ⟨.raisedNet, 1, []⟩) ∧
    (((fun k => if k = 0 then TokenAttempt.resp 503 "" else .resp 200 "tok") :
        Nat → TokenAttempt) 0 = .resp 503 "" →
      ((fun k => if k = 0 then TokenAttempt.resp 503 "" else .resp 200 "tok") :
        Nat → TokenAttempt) 1 = .resp 200 "tok" →
      get_access_token
        (fun k => if k = 0 then .resp 503 "" else .resp 200 "tok")
        = ⟨.ok "tok", 2, [1]⟩) :=
  C1_only_429_transient (fun _ => .resp ⟨503, "oops"⟩) kw0 4 (by decide)
    ⟨503, "oops"⟩ (by decide) (by decide)
    (fun k => if k = 0 then .resp 503 "" else .resp 200 "tok") 503
    (by decide) (by decide)

/-- C2: with `max_retries = 4` and the default schedule `[60, 300, 300]`,
a 429 on every attempt sleeps 60, 300, 300 seconds between attempts and
raises the HTTP error on the 4th attempt, after exactly 4 requests; and
the wait before a retry is the schedule entry at `min(attempt, len-1)`. -/
theorem C2_backoff_schedule_exact :
    request_with_retry (fun _ => .resp ⟨429, "limited"⟩) 4 kw0
      = ⟨.raisedHttp ⟨429, "limited"⟩, 4, [60, 300, 300]⟩ ∧
    ∀ (delays : List Nat) (attempt : Nat), delays ≠ [] →
      waitTime delays attempt
        = delays.getD (min attempt (delays.length - 1)) 0 := by
  refine ⟨by decide, fun delays attempt hne => ?_⟩
  unfold waitTime
  by_cases h : attempt < delays.length
  · rw [if_pos h, Nat.min_eq_left (by omega)]
  · rw [if_neg h, Nat.min_eq_right (by omega)]
    rw [List.getLastD_eq_getLast?, List.getLast?_eq_getElem?,
      List.getD_eq_getElem?_getD]

/-- C2 witness. -/
theorem C2_backoff_schedule_exact_witness :
    waitTime [60, 300, 300] 5 = [60, 300, 300].getD (min 5 2) 0 :=
  C2_backoff_schedule_exact.2 [60, 300, 300] 5 (by decide)

/-- C3 counterexample: a first response with status 304 — non-2xx and not
429 — is returned unmodified instead of failing with an HTTP error,
because `raise_for_status` raises only for statuses in `[400, 600)`. -/
theorem C3_counterexample :
    request_with_retry (fun _ => .resp ⟨304, "notmodified"⟩) 4 kw0
      = ⟨.ok ⟨304, "notmodified"⟩, 1, []⟩ := by
  decide

/-- C3 amended: a first response with a status outside `[400, 600)` (in
particular any 2xx) is returned unmodified after exactly one request with
no sleep and no retry; a first response with a status in `[400, 600)`
other than 429 fails immediately with an HTTP error carrying that
response, after exactly one request. -/
theorem C3_first_response (outcomes : Nat → Attempt) (kw : Kwargs)
    (m : Nat) (hm : 1 ≤ m) (r : Response) (h0 : outcomes 0 = .resp r) :
    (¬(400 ≤ r.status ∧ r.status < 600) →
      request_with_retry outcomes m kw = ⟨.ok r, 1, []⟩) ∧
    (400 ≤ r.status → r.status < 600 → r.status ≠ 429 →
      request_with_retry outcomes m kw = ⟨.raisedHttp r, 1, []⟩) := by
  obtain ⟨m', rfl⟩ : ∃ m', m = m' + 1 := ⟨m - 1, by omega⟩
  constructor
  · intro hout
    simp [request_with_retry, retryAux, h0, if_neg hout]
  · intro h4 h6 h429
    have hcond : 400 ≤ r.status ∧ r.status < 600 := ⟨h4, h6⟩
    simp [request_with_retry, retryAux, h0, hcond, h429]

/-- C3 witness. -/
theorem C3_first_response_witness :
    ((¬(400 ≤ (Response.mk 201 "made").status ∧
          (Response.mk 201 "made").status < 600) →
      request_with_retry (fun _ => .resp ⟨201, "made"⟩) 4 kw0
        = ⟨.ok ⟨201, "made"⟩, 1, []⟩) ∧
    (400 ≤ (Response.mk 201 "made").status →
      (Response.mk 201 "made").status < 600 →
      (Response.mk 201 "made").status ≠ 429 →
      request_with_retry (fun _ => .resp ⟨201, "made"⟩) 4 kw0
        = ⟨.raisedHttp ⟨201, "made"⟩, 1, []⟩)) :=
  C3_first_response (fun _ => .resp ⟨201, "made"⟩) kw0 4 (by decide)
    ⟨201, "made"⟩ rfl

/-- C10: `request_with_retry` strips `retry_delay` and `retry_delays`
from the kwargs before issuing the request, and a legacy `retry_delay`
argument is discarded without affecting behaviour: with no
`retry_delays`, the schedule is the default `[60, 300, 300]` and the run
is identical to the same call without `retry_delay`. -/
theorem C10_retry_delay_discarded (kw : Kwargs) (outcomes : Nat → Attempt)
    (m : Nat) :
    poppedKwargs kw = ⟨none, none, kw.other⟩ ∧
    resolvedDelays { kw with retry_delay := some 50, retry_delays := none }
      = [60, 300, 300] ∧
    request_with_retry outcomes m
        { kw with retry_delay := some 50, retry_delays := none }
      = request_with_retry outcomes m
        { kw with retry_delay := none, retry_delays := none } :=
  ⟨rfl, rfl, rfl⟩

/-! ## Theorems: async report protocol (claims C4, C5, C9) -/

/-- C4, behaviour at the failing input: a status sequence IN_PROGRESS,
IN_PROGRESS, FATAL stops the poll loop after exactly 3 status GETs (it is
never polled again), while an always-IN_PROGRESS job is polled all
`max_attempts = 10` times; but `fetch_report` hands the caller the exact
same value in both cases — `(None, False, False)` — so the Failed
outcome is NOT distinguishable by the caller from the TimedOut one,
contradicting the claim and `fetch_report`'s own docstring. -/
theorem C4_fatal_three_polls_indistinguishable (st : Nat → PStatus)
    (h0 : st 0 = .inProgress) (h1 : st 1 = .inProgress)
    (h2 : st 2 = .fatal) (items : List String) :
    pollChunk st 10 = (none, 3) ∧
    pollChunk (fun _ => .inProgress) 10 = (none, 10) ∧
    fetch_report [⟨true, st, some items⟩] 10
      = fetch_report [⟨true, fun _ => .inProgress, some items⟩] 10 := by
  have hp : pollChunk st 10 = (none, 3) := by
    simp [pollChunk, pollAux, h0, h1, h2]
  refine ⟨hp, by decide, ?_⟩
  have hq : pollChunk (fun _ => .inProgress) 10 = (none, 10) := by decide
  simp [fetch_report, processChunk, hp, hq]

/-- C4 witness. -/
theorem C4_fatal_three_polls_indistinguishable_witness :
    pollChunk (fun k => if k < 2 then .inProgress else .fatal) 10
      = (none, 3) ∧
    pollChunk (fun _ => .inProgress) 10 = (none, 10) ∧
    fetch_report
        [⟨true, fun k => if k < 2 then .inProgress else .fatal,
          some ["row"]⟩] 10
      = fetch_report [⟨true, fun _ => .inProgress, some ["row"]⟩] 10 :=
  C4_fatal_three_polls_indistinguishable
    (fun k => if k < 2 then .inProgress else .fatal)
    (by decide) (by decide) (by decide) ["row"]

/-- C5, behaviour at the failing input: `fetch_report` returns
`is_fatal = False` and `is_timeout = False` whatever happened (lines
241-244), so in `backfill_weekly` a window whose chunks all end FATAL
does not stop the loop over older windows: the driver goes on and
successfully fetches the following (older) window. Under the claim (and
`fetch_report`'s docstring), the FATAL window should have ended the loop
early. -/
theorem C5_fatal_unit_does_not_stop_loop :
    (∀ (envs : List ChunkEnv) (m : Nat),
      (fetch_report envs m).2.1 = false ∧ (fetch_report envs m).2.2 = false) ∧
    bwLoop
      (fun fn =>
        if fn = "20240804-20240810.json" then
          fetch_report
            [⟨true, fun k => if k < 2 then .inProgress else .fatal,
              some ["row"]⟩] 10
        else
          fetch_report [⟨true, fun _ => .done "D1", some ["row"]⟩] 10)
      ["20240804-20240810.json", "20240728-20240803.json"] bwInit
      = ⟨["20240728-20240803.json"], 1, 1, 0, 0⟩ := by
  constructor
  · intro envs m
    by_cases h : ((envs.map (fun e => processChunk e m)).flatten).isEmpty
    · simp [fetch_report, h]
    · simp [fetch_report, h]
  · decide

/-- Every poll loop issues at most `fuel` status GETs. -/
theorem pollAux_polls_le (st : Nat → PStatus) :
    ∀ (fuel a : Nat), (pollAux st a fuel).2 ≤ fuel := by
  intro fuel
  induction fuel with
  | zero => intro a; simp [pollAux]
  | succ n ih =>
    intro a
    cases h : st a with
    | done d => simp [pollAux, h]
    | fatal => simp [pollAux, h]
    | cancelled => simp [pollAux, h]
    | inQueue =>
      simp only [pollAux, h]
      exact Nat.add_le_add_right (ih (a + 1)) 1
    | inProgress =>
      simp only [pollAux, h]
      exact Nat.add_le_add_right (ih (a + 1)) 1

/-- Polling a report other than the one just processed leaves its poll
count unchanged. -/
theorem salesPollOnce_polls_other (env : String → Nat → SalesPoll)
    (s : SalesState) (id id' : String) (h : id ≠ id') :
    (salesPollOnce env s id').polls id = s.polls id := by
  unfold salesPollOnce
  by_cases hm : id' ∈ s.completed
  · simp [hm]
  · simp only [if_neg hm]
    cases env id' (s.polls id') with
    | excDuringPoll => simp [h]
    | resp st => cases st <;> simp [h]

/-- One round adds at most one poll to any report. -/
theorem salesPollOnce_polls_self_le (env : String → Nat → SalesPoll)
    (s : SalesState) (id : String) :
    (salesPollOnce env s id).polls id ≤ s.polls id + 1 := by
  unfold salesPollOnce
  by_cases hm : id ∈ s.completed
  · simp [hm]
  · simp only [if_neg hm]
    cases env id (s.polls id) with
    | excDuringPoll => simp
    | resp st => cases st <;> simp

/-- A report not in the round's pending list is not polled by the round. -/
theorem salesIter_polls_notmem (env : String → Nat → SalesPoll) (id : String) :
    ∀ (pending : List String) (s : SalesState), id ∉ pending →
      (salesIter env pending s).polls id = s.polls id := by
  intro pending
  induction pending with
  | nil => intro s _; rfl
  | cons p rest ih =>
    intro s h
    have hp : id ≠ p := fun he => h (he ▸ List.mem_cons_self p rest)
    have hr : id ∉ rest := fun hm => h (List.mem_cons_of_mem p hm)
    show (salesIter env rest (salesPollOnce env s p)).polls id = s.polls id
    rw [ih _ hr, salesPollOnce_polls_other env s id p hp]

/-- One round over a duplicate-free pending list polls each report at
most once. -/
theorem salesIter_polls_le (env : String → Nat → SalesPoll) (id : String) :
    ∀ (pending : List String) (s : SalesState), pending.Nodup →
      (salesIter env pending s).polls id ≤ s.polls id + 1 := by
  intro pending
  induction pending with
  | nil => intro s _; exact Nat.le_succ _
  | cons p rest ih =>
    intro s hnd
    have hp : p ∉ rest := (List.nodup_cons.mp hnd).1
    have hr : rest.Nodup := (List.nodup_cons.mp hnd).2
    show (salesIter env rest (salesPollOnce env s p)).polls id ≤ s.polls id + 1
    by_cases he : id = p
    · subst he
      rw [salesIter_polls_notmem env id rest _ hp]
      exact salesPollOnce_polls_self_le env s id
    · calc (salesIter env rest (salesPollOnce env s p)).polls id
          ≤ (salesPollOnce env s p).polls id + 1 := ih _ hr
        _ = s.polls id + 1 := by
            rw [salesPollOnce_polls_other env s id p he]

/-- The bounded waiting loop adds at most `fuel` polls per report. -/
theorem salesLoop_polls_le (env : String → Nat → SalesPoll)
    (pending : List String) (id : String) (hnd : pending.Nodup) :
    ∀ (fuel : Nat) (s : SalesState),
      (salesLoop env pending fuel s).polls id ≤ s.polls id + fuel := by
  intro fuel
  induction fuel with
  | zero => intro s; simp [salesLoop]
  | succ n ih =>
    intro s
    unfold salesLoop
    by_cases h : pending.all (fun j => s.completed.contains j)
    · rw [if_pos h]; omega
    · rw [if_neg h]
      calc (salesLoop env pending n (salesIter env pending s)).polls id
          ≤ (salesIter env pending s).polls id + n := ih _
        _ ≤ (s.polls id + 1) + n := by
            have := salesIter_polls_le env id pending s hnd
            omega
        _ = s.polls id + (n + 1) := by omega

/-- C9: every polling loop is bounded by its finite attempt ceiling: the
single-report loop issues at most `maxAttempts` status GETs for any
status sequence (15 in `ledger_summary_view_data.run`, the caller's
`max_attempts` in `fetch_report`), and the batched loop of
`sales_and_traffic_report.run` polls each pending report at most
`max_loops = 40` times. -/
theorem C9_poll_attempts_bounded (st : Nat → PStatus) (m : Nat)
    (env : String → Nat → SalesPoll) (pending : List String) (id : String)
    (hnd : pending.Nodup) :
    (pollChunk st m).2 ≤ m ∧ (pollChunk st 15).2 ≤ 15 ∧
    (salesRun env pending).polls id ≤ 40 := by
  refine ⟨pollAux_polls_le st m 0, pollAux_polls_le st 15 0, ?_⟩
  have := salesLoop_polls_le env pending id hnd 40 ⟨[], fun _ => 0⟩
  simpa [salesRun] using this

/-- C9 witness. -/
theorem C9_poll_attempts_bounded_witness :
    (pollChunk (fun _ => .inProgress) 20).2 ≤ 20 ∧
    (pollChunk (fun _ => .inProgress) 15).2 ≤ 15 ∧
    (salesRun (fun _ _ => .resp .inProgress) ["r1", "r2"]).polls "r1"
      ≤ 40 :=
  C9_poll_attempts_bounded (fun _ => .inProgress) 20
    (fun _ _ => .resp .inProgress) ["r1", "r2"] "r1" (by decide)

/-! ## Theorems: payload decoding (claim C6) -/

/-- C6 counterexample. First input: a valid gzip stream whose
decompressed bytes are not valid UTF-8 (e.g. gzip of `b'\xff'`) — the
all_orders ladder raises `UnicodeDecodeError` instead of falling through,
because its first `except` catches only `gzip.BadGzipFile`. Second
input: bytes with the gzip magic but an unknown compression method
(e.g. `b'\x1f\x8b\x00'`), not valid UTF-8 nor Shift-JIS — a non-UTF-8,
non-Shift-JIS input on which the ledger ladder raises `BadGzipFile` from
its cp932 branch instead of reaching the Latin-1 fallback. -/
theorem C6_counterexample :
    allOrdersDecode ⟨true, .ok, false, false, false, false⟩
      = .raised .unicodeDecodeError ∧
    ledgerDecode ⟨true, .badGzip, false, false, false, false⟩
      = .raised .badGzipFile := by
  decide

/-- C6 amended: when gzip decompression succeeds but the decompressed
bytes are not valid UTF-8, the ledger ladder falls through (cp932, then
Latin-1, still reading the gzip stream) and returns text, while the
all_orders ladder raises `UnicodeDecodeError`; an arbitrary non-UTF-8,
non-Shift-JIS input *without* the gzip magic reaches the
always-succeeding Latin-1 fallback in both ladders. -/
theorem C6_decode_fallthrough (b : RawBytes) :
    (b.gz = .ok → b.innerUtf8 = false →
      allOrdersDecode b = .raised .unicodeDecodeError) ∧
    (b.gz = .ok → b.innerUtf8 = false → b.hasGzipMagic = true →
      ledgerDecode b
        = .decoded (if b.innerCp932 then .cp932 else .latin1) .gzipped) ∧
    (b.hasGzipMagic = false → b.gz = .badGzip → b.rawUtf8 = false →
      b.rawCp932 = false →
      allOrdersDecode b = .decoded .latin1 .raw ∧
      ledgerDecode b = .decoded .latin1 .raw) := by
  refine ⟨?_, ?_, ?_⟩
  · intro hgz hiu
    simp [allOrdersDecode, gzipRead, hgz, hiu]
  · intro hgz hiu hmg
    cases hic : b.innerCp932 <;>
      simp [ledgerDecode, gzipRead, hgz, hiu, hmg, hic]
  · intro h1 h2 h3 h4
    constructor
    · simp [allOrdersDecode, gzipRead, h2, h3, h4]
    · simp [ledgerDecode, gzipRead, h1, h2, h4]

/-- C6 witness. -/
theorem C6_decode_fallthrough_witness :
    allOrdersDecode ⟨true, .ok, false, true, false, false⟩
      = .raised .unicodeDecodeError ∧
    ledgerDecode ⟨true, .ok, false, true, false, false⟩
      = .decoded
        (if (RawBytes.mk true .ok false true false false).innerCp932
          then .cp932 else .latin1) .gzipped ∧
    (allOrdersDecode ⟨false, .badGzip, false, false, false, false⟩
        = .decoded .latin1 .raw ∧
      ledgerDecode ⟨false, .badGzip, false, false, false, false⟩
        = .decoded .latin1 .raw) :=
  ⟨(C6_decode_fallthrough ⟨true, .ok, false, true, false, false⟩).1 rfl rfl,
   (C6_decode_fallthrough ⟨true, .ok, false, true, false, false⟩).2.1
     rfl rfl rfl,
   (C6_decode_fallthrough ⟨false, .badGzip, false, false, false, false⟩).2.2
     rfl rfl rfl rfl⟩

/-! ## Theorems: chunking (claim C7) -/

/-- With fuel at least the list length, the produced slices concatenate
back to the input. -/
theorem chunksAux_flatten {α : Type} :
    ∀ (fuel : Nat) (l : List α), l.length ≤ fuel →
      (chunksAux fuel l).flatten = l := by
  intro fuel
  induction fuel with
  | zero =>
    intro l h
    cases l with
    | nil => rfl
    | cons a t => simp at h
  | succ n ih =>
    intro l h
    cases l with
    | nil => rfl
    | cons a t =>
      show ((a :: t).take 10 ++ (chunksAux n ((a :: t).drop 10)).flatten) = a :: t
      rw [ih ((a :: t).drop 10) (by simp at h ⊢; omega)]
      exact List.take_append_drop 10 (a :: t)

/-- The slice sizes depend only on the input length. -/
theorem chunksAux_map_length_congr {α β : Type} :
    ∀ (fuel : Nat) (l₁ : List α) (l₂ : List β), l₁.length = l₂.length →
      (chunksAux fuel l₁).map List.length
        = (chunksAux fuel l₂).map List.length := by
  intro fuel
  induction fuel with
  | zero => intro l₁ l₂ _; cases l₁ <;> cases l₂ <;> rfl
  | succ n ih =>
    intro l₁ l₂ h
    cases l₁ with
    | nil =>
      cases l₂ with
      | nil => rfl
      | cons b t₂ => simp at h
    | cons a t₁ =>
      cases l₂ with
      | nil => simp at h
      | cons b t₂ =>
        have ht : t₁.length = t₂.length := by simpa using h
        show ((a :: t₁).take 10).length ::
            (chunksAux n ((a :: t₁).drop 10)).map List.length
          = ((b :: t₂).take 10).length ::
            (chunksAux n ((b :: t₂).drop 10)).map List.length
        congr 1
        · simp [List.length_take, ht]
        · exact ih _ _ (by simp [List.length_drop, ht])

/-- C7: chunking with chunk size 10 partitions the identifier list into
consecutive slices whose concatenation (and the concatenation of any
per-chunk results, in input order) restores the input order, and a list
of length 23 yields exactly 3 chunks of sizes 10, 10, 3. -/
theorem C7_chunking {α β : Type} (l : List α) (f : α → β) :
    (chunks10 l).flatten = l ∧
    ((chunks10 l).map (List.map f)).flatten = List.map f l ∧
    (l.length = 23 →
      (chunks10 l).map List.length = [10, 10, 3] ∧
      (chunks10 l).length = 3) := by
  have hfl : (chunks10 l).flatten = l :=
    chunksAux_flatten l.length l (Nat.le_refl _)
  refine ⟨hfl, ?_, ?_⟩
  · rw [← List.map_flatten, hfl]
  · intro h23
    have hsz : (chunks10 l).map List.length
        = (chunks10 (List.range 23)).map List.length := by
      unfold chunks10
      rw [h23]
      exact chunksAux_map_length_congr 23 l (List.range 23) (by simp [h23])
    have hval : (chunks10 (List.range 23)).map List.length = [10, 10, 3] := by
      decide
    constructor
    · rw [hsz, hval]
    · have := congrArg List.length (hsz.trans hval)
      simpa using this

/-- C7 witness. -/
theorem C7_chunking_witness :
    (chunks10 (List.range 23)).flatten = List.range 23 ∧
    ((chunks10 (List.range 23)).map (List.map Nat.succ)).flatten
      = List.map Nat.succ (List.range 23) ∧
    ((List.range 23).length = 23 →
      (chunks10 (List.range 23)).map List.length = [10, 10, 3] ∧
      (chunks10 (List.range 23)).length = 3) :=
  C7_chunking (List.range 23) Nat.succ

/-! ## Theorems: sink idempotence (claim C8) -/

/-- C8 counterexample: the recurring `sales_and_traffic_report.run`
driver performs no existence check — running its write unit twice for
the same blob name issues two writes, and the second run is a write, not
a skip. -/
theorem C8_counterexample :
    (salesWriteUnit
        (salesWriteUnit [] "sales-and-traffic-report/day/20240801.json"
          "data").1
        "sales-and-traffic-report/day/20240801.json" "data").1.count
      "sales-and-traffic-report/day/20240801.json" = 2 ∧
    (salesWriteUnit
        (salesWriteUnit [] "sales-and-traffic-report/day/20240801.json"
          "data").1
        "sales-and-traffic-report/day/20240801.json" "data").2 = true := by
  decide

/-- C8 amended: the *backfill* drivers are idempotent per window — the
unit first checks whether the sink already holds the window's file and
skips as a no-op if so, so running the same window twice against a
persisting sink yields exactly one write, the second run reporting the
window as skipped; the recurring endpoint drivers instead write
unconditionally (overwriting the same key on re-runs). -/
theorem C8_backfill_skip_if_exists (files : List String) (fn c : String)
    (h : fn ∉ files) (fetch : String → Option String × Bool × Bool)
    (hf : fetch fn = (some c, false, false)) :
    (backfillUnit files fn (some c)).2 = .written ∧
    (backfillUnit (backfillUnit files fn (some c)).1 fn (some c)).2
      = .skippedExists ∧
    (backfillUnit (backfillUnit files fn (some c)).1 fn (some c)).1.count fn
      = files.count fn + 1 ∧
    bwLoop fetch [fn] bwInit = ⟨[fn], 1, 0, 0, 0⟩ ∧
    bwLoop fetch [fn] ⟨[fn], 0, 0, 0, 0⟩ = ⟨[fn], 0, 1, 0, 0⟩ := by
  refine ⟨?_, ?_, ?_, ?_, ?_⟩
  · simp [backfillUnit, h]
  · simp [backfillUnit, h]
  · simp [backfillUnit, h]
  · simp [bwLoop, bwInit, hf]
  · simp [bwLoop]

/-- C8 witness. -/
theorem C8_backfill_skip_if_exists_witness :
    ((backfillUnit ["a.json"] "b.json" (some "x")).2 = .written ∧
    (backfillUnit (backfillUnit ["a.json"] "b.json" (some "x")).1 "b.json"
        (some "x")).2 = .skippedExists ∧
    (backfillUnit (backfillUnit ["a.json"] "b.json" (some "x")).1 "b.json"
        (some "x")).1.count "b.json" = (["a.json"].count "b.json") + 1 ∧
    bwLoop (fun _ => (some "x", false, false)) ["b.json"] bwInit
      = ⟨["b.json"], 1, 0, 0, 0⟩ ∧
    bwLoop (fun _ => (some "x", false, false)) ["b.json"]
        ⟨["b.json"], 0, 0, 0, 0⟩ = ⟨["b.json"], 0, 1, 0, 0⟩) :=
  C8_backfill_skip_if_exists ["a.json"] "b.json" "x" (by decide)
    (fun _ => (some "x", false, false)) rfl

end SpApi
